import Mathlib

/-!
Shallow embedding of the nvme-ata-security tool (src/user/src/main.rs) and
verification of its specification claims.

The device boundary (the `ops` module: `security_send`, `security_receive`,
`identify`, `nvme_ioctl_reset`) and the `nvme` module (identity decoding,
`AtaSecurityPassword`, `AtaSecurityIdentify`, `Protocol`) are repository code
that is not included under src/; those leaves are modelled from the spec
(sections 3, 4 and 6), as marked on each definition. All orchestration logic
(`security_protocols`, `ata_identify`, `query`, `check_support`, the six
`security_*` operations, `read_password_err`, `main`) is translated directly
from src/user/src/main.rs.

Device interactions are modelled by an oracle (`Device`) whose response
functions may depend on the full history of events issued so far, and every
operation returns, along with its result, the list of events it issued.
-/

namespace NvmeAtaSec

/-- A transport / command error (`ops::Error` / `io::Error`), abstracted to a
numeric code. -/
inductive IoErr where
  | ioError (code : Nat) : IoErr
deriving DecidableEq

/-- The error used where the source raises `UnexpectedEof` ("zero bytes read")
or where an input stream is exhausted. -/
def eofErr : IoErr := IoErr.ioError 0

instance {ε α : Type} [DecidableEq ε] [DecidableEq α] :
    DecidableEq (Except ε α) := fun a b =>
  match a, b with
  | Except.error e1, Except.error e2 =>
    if h : e1 = e2 then isTrue (by rw [h])
    else isFalse (by intro hh; cases hh; exact h rfl)
  | Except.ok v1, Except.ok v2 =>
    if h : v1 = v2 then isTrue (by rw [h])
    else isFalse (by intro hh; cases hh; exact h rfl)
  | Except.error _, Except.ok _ => isFalse (by intro hh; cases hh)
  | Except.ok _, Except.error _ => isFalse (by intro hh; cases hh)

/-- Content of a fixed-size in/out byte buffer of length `n` after a device
call that wrote `l`: the first `n` bytes of `l`, zero-filled to length `n`. -/
def fixLen (n : Nat) (l : List Nat) : List Nat :=
  l.take n ++ List.replicate (n - l.length) 0

/-- Big-endian 16-bit read at byte offset `i` (`read_u16::<BigEndian>`). -/
def be16 (l : List Nat) (i : Nat) : Nat :=
  256 * l.getD i 0 + l.getD (i + 1) 0

/-- Little-endian 16-bit read at byte offset `i`. -/
def le16 (l : List Nat) (i : Nat) : Nat :=
  l.getD i 0 + 256 * l.getD (i + 1) 0

/-- Bit `k` of `n`. -/
def bit (n k : Nat) : Bool := (n / 2 ^ k) % 2 = 1

/-- Modelled from the spec: `nvme::security::Protocol` (src/nvme/security.rs is
not under src/). One well-known variant, ATA-Security, recognized from
protocol byte `0xEF` (spec section 8: first byte 0xEF recognized as
ATA-Security), plus an other/unknown fallback carrying the raw byte. -/
inductive Protocol where
  | AtaSecurity : Protocol
  | Other (b : Nat) : Protocol
deriving DecidableEq

/-- Modelled from the spec: the `From<u8>` conversion for `Protocol`. -/
def Protocol.ofByte (b : Nat) : Protocol :=
  if b = 0xEF then Protocol.AtaSecurity else Protocol.Other b

/-- Modelled from the spec: the `Into<u8>` conversion for `Protocol`;
`ProtocolAtaSecurity.into()` is the security-protocol byte 0xEF. -/
def Protocol.toByte : Protocol → Nat
  | Protocol.AtaSecurity => 0xEF
  | Protocol.Other b => b

/-- Modelled from the spec: `nvme::security::AtaSecuritySpecific`, the closed
set of six sub-command selectors, "each mapping to a fixed 16-bit sub-command
parameter defined by the tunneled specification" (the ATA security command
codes F1h..F6h). -/
inductive AtaSecuritySpecific where
  | SetPassword : AtaSecuritySpecific
  | Unlock : AtaSecuritySpecific
  | ErasePrepare : AtaSecuritySpecific
  | EraseUnit : AtaSecuritySpecific
  | FreezeLock : AtaSecuritySpecific
  | DisablePassword : AtaSecuritySpecific
deriving DecidableEq

/-- Modelled from the spec: the `as u16` value of each sub-command selector. -/
def AtaSecuritySpecific.toNat : AtaSecuritySpecific → Nat
  | AtaSecuritySpecific.SetPassword => 0xF1
  | AtaSecuritySpecific.Unlock => 0xF2
  | AtaSecuritySpecific.ErasePrepare => 0xF3
  | AtaSecuritySpecific.EraseUnit => 0xF4
  | AtaSecuritySpecific.FreezeLock => 0xF5
  | AtaSecuritySpecific.DisablePassword => 0xF6

/-- Modelled from the spec: `nvme::identify::IdentifyController`
(src/nvme/identify.rs is not under src/): decoded identity snapshot with
vendor id, subsystem vendor id, serial/model/firmware ASCII fields and the
admin-capability (OACS) bitmask. -/
structure IdentifyController where
  vid : Nat
  ssvid : Nat
  sn : List Nat
  mn : List Nat
  fr : List Nat
  oacs : Nat
deriving DecidableEq

/-- Modelled from the spec: `identity.oacs().contains(OACS_SECURITY)` — the
SECURITY bit of the admin-capability mask (NVMe OACS bit 0). -/
def IdentifyController.oacsSecurity (i : IdentifyController) : Bool :=
  bit i.oacs 0

/-- Modelled from the spec: `nvme::security::AtaSecurityIdentify`, the decoded
16-byte ATA security status snapshot (spec section 4.3). -/
structure AtaSecurityIdentify where
  security_erase_time : Nat
  enhanced_security_erase_time : Nat
  master_password_identifier : Nat
  maxset : Bool
  s_suprt : Bool
  s_enabld : Bool
  locked : Bool
  frozen : Bool
  pwncntex : Bool
  en_er_sup : Bool
deriving DecidableEq

/-- Modelled from the spec: `AtaSecurityIdentify::from([u8;16])` — word0
bit0=supported, bit1=enabled, bit2=locked, bit3=frozen, bit4=attempt-count-
exceeded, bit5=enhanced-erase-supported, bit8=maximum-security-level-selected;
word1=erase-time; word2=enhanced-erase-time; word3=master-password-id. -/
def ataSecurityIdentifyFrom (buf : List Nat) : AtaSecurityIdentify :=
  let w0 := le16 buf 0
  { s_suprt := bit w0 0
    s_enabld := bit w0 1
    locked := bit w0 2
    frozen := bit w0 3
    pwncntex := bit w0 4
    en_er_sup := bit w0 5
    maxset := bit w0 8
    security_erase_time := le16 buf 2
    enhanced_security_erase_time := le16 buf 4
    master_password_identifier := le16 buf 6 }

/-- Modelled from the spec: `AtaSecurityPassword::new(password, master, level,
master_id)` followed by `.into(): [u8;36]` (src/nvme/security.rs is not under
src/). Spec sections 4.4 and 6: 36-byte payload; control word (bit0 = role,
0=user/1=master; bit8 = level, 0=high/1=maximum) stored little-endian in bytes
0-1; bytes 2-33 = password verbatim; bytes 34-35 = master-password-identifier
as a little-endian 16-bit value when role is master, else zero. -/
def ataSecurityPasswordNew (password : List Nat) (master : Bool)
    (level : Option Bool) (id : Option Nat) : List Nat :=
  let control : Nat :=
    (if master then 1 else 0) + (if level = some true then 256 else 0)
  let idv : Nat := if master then id.getD 0 else 0
  [control % 256, control / 256] ++ password ++ [idv % 256, idv / 256 % 256]

/-- One observable interaction with the outside world, in issue order.
`receiveEv`/`sendEv` record the security-protocol byte, the sub-command
(SPSP), the NSSF argument and, for receives, the buffer length, and for
sends, the optional payload. `readPasswordEv` records a call to
`read_password` with its `confirm` flag. -/
inductive Event where
  | identifyEv : Event
  | receiveEv (secp spsp nssf buflen : Nat) : Event
  | sendEv (secp spsp nssf : Nat) (payload : Option (List Nat)) : Event
  | resetEv : Event
  | readPasswordEv (confirm : Bool) : Event
deriving DecidableEq

def isSend : Event → Bool
  | Event.sendEv _ _ _ _ => true
  | _ => false

def isReadPw : Event → Bool
  | Event.readPasswordEv _ => true
  | _ => false

/-- Modelled from the spec (section 6 collaborator boundary): the device as an
oracle. Each response function may depend on the full history of events issued
so far, so stateful devices are covered. `passwordResp` models the outcome of
the password-acquisition collaborator (`read_password` exits the process on
error). -/
structure Device where
  identifyResp : List Event → Except IoErr IdentifyController
  receiveResp : List Event → Nat → Nat → Nat → Nat → Except IoErr (List Nat)
  sendResp : List Event → Nat → Nat → Nat → Option (List Nat) → Except IoErr Unit
  resetResp : List Event → Except IoErr Unit
  passwordResp : List Event → Bool → Except IoErr (List Nat)

/-- Modelled from the spec: `ops::security_receive(fd, secp, spsp, nssf, buf)`
— one receive round-trip; on success the buffer holds exactly `len` bytes.
`tr` is the history of events issued before this call. -/
def security_receive (d : Device) (secp spsp nssf len : Nat) (tr : List Event) :
    Except IoErr (List Nat) × List Event :=
  (match d.receiveResp tr secp spsp nssf len with
   | Except.error e => Except.error e
   | Except.ok b => Except.ok (fixLen len b),
   [Event.receiveEv secp spsp nssf len])

/-- Modelled from the spec: `ops::security_send(fd, secp, spsp, nssf, payload)`
— one send round-trip. -/
def security_send (d : Device) (secp spsp nssf : Nat)
    (payload : Option (List Nat)) (tr : List Event) :
    Except IoErr Unit × List Event :=
  (d.sendResp tr secp spsp nssf payload, [Event.sendEv secp spsp nssf payload])

/-- Modelled from the spec: `ops::identify(fd)` — one identify round-trip
returning the decoded controller identity. -/
def ops_identify (d : Device) (tr : List Event) :
    Except IoErr IdentifyController × List Event :=
  (d.identifyResp tr, [Event.identifyEv])

/-- Modelled from the spec: `ops::nvme_ioctl_reset(fd)` — one controller
reset. -/
def nvme_ioctl_reset (d : Device) (tr : List Event) :
    Except IoErr Unit × List Event :=
  (d.resetResp tr, [Event.resetEv])

/-- `security_protocols` from src/user/src/main.rs: if the OACS security
capability bit is absent, `Ok(None)` with no device command; otherwise a
receive with an 8-byte buffer, the big-endian 16-bit length at offset 6, and,
when that length is positive, a second receive with the buffer resized to
length+8 whose bytes after the 8-byte header are mapped to protocols. -/
def security_protocols (d : Device) (identity : IdentifyController)
    (tr : List Event) :
    Except IoErr (Option (List Protocol)) × List Event :=
  if identity.oacsSecurity then
    match security_receive d 0 0 0 8 tr with
    | (Except.error e, l1) => (Except.error e, l1)
    | (Except.ok supported, l1) =>
      let bytes := be16 supported 6
      if bytes > 0 then
        match security_receive d 0 0 0 (bytes + 8) (tr ++ l1) with
        | (Except.error e, l2) => (Except.error e, l1 ++ l2)
        | (Except.ok buf2, l2) =>
          (Except.ok (some ((buf2.drop 8).map Protocol.ofByte)), l1 ++ l2)
      else
        (Except.ok (some []), l1)
  else
    (Except.ok none, [])

/-- `ata_identify` from src/user/src/main.rs: `Ok(None)` with no command when
ATA-Security is absent from the protocol list; otherwise one receive
(protocol 0xEF, sub-selector 0, 16-byte buffer) decoded as the status. -/
def ata_identify (d : Device) (protocols : List Protocol) (tr : List Event) :
    Except IoErr (Option AtaSecurityIdentify) × List Event :=
  if protocols.contains Protocol.AtaSecurity then
    match security_receive d Protocol.AtaSecurity.toByte 0 0 16 tr with
    | (Except.error e, l) => (Except.error e, l)
    | (Except.ok buf, l) => (Except.ok (some (ataSecurityIdentifyFrom buf)), l)
  else
    (Except.ok none, [])

/-- `security_set_password_user` from src/user/src/main.rs. -/
def security_set_password_user (d : Device) (password : List Nat)
    (maximum_security : Bool) (tr : List Event) :
    Except IoErr Unit × List Event :=
  let buf := ataSecurityPasswordNew password false (some maximum_security) none
  security_send d Protocol.AtaSecurity.toByte
    AtaSecuritySpecific.SetPassword.toNat 0 (some buf) tr

/-- `security_set_password_master` from src/user/src/main.rs. -/
def security_set_password_master (d : Device) (password : List Nat) (id : Nat)
    (tr : List Event) : Except IoErr Unit × List Event :=
  let buf := ataSecurityPasswordNew password true none (some id)
  security_send d Protocol.AtaSecurity.toByte
    AtaSecuritySpecific.SetPassword.toNat 0 (some buf) tr

/-- `security_unlock` from src/user/src/main.rs: one Unlock send, then, only
when the send succeeded, one controller reset. -/
def security_unlock (d : Device) (password : List Nat) (master : Bool)
    (tr : List Event) : Except IoErr Unit × List Event :=
  let buf := ataSecurityPasswordNew password master none none
  match security_send d Protocol.AtaSecurity.toByte
      AtaSecuritySpecific.Unlock.toNat 0 (some buf) tr with
  | (Except.error e, l) => (Except.error e, l)
  | (Except.ok _, l) =>
    match nvme_ioctl_reset d (tr ++ l) with
    | (r, l2) => (r, l ++ l2)

/-- `security_erase` from src/user/src/main.rs: an ErasePrepare send with no
payload, then, only when it succeeded, an EraseUnit send with the encoded
password payload. -/
def security_erase (d : Device) (password : List Nat) (master enhanced : Bool)
    (tr : List Event) : Except IoErr Unit × List Event :=
  match security_send d Protocol.AtaSecurity.toByte
      AtaSecuritySpecific.ErasePrepare.toNat 0 none tr with
  | (Except.error e, l) => (Except.error e, l)
  | (Except.ok _, l) =>
    let buf := ataSecurityPasswordNew password master (some enhanced) none
    match security_send d Protocol.AtaSecurity.toByte
        AtaSecuritySpecific.EraseUnit.toNat 0 (some buf) (tr ++ l) with
    | (r, l2) => (r, l ++ l2)

/-- `security_freeze` from src/user/src/main.rs. -/
def security_freeze (d : Device) (tr : List Event) :
    Except IoErr Unit × List Event :=
  security_send d Protocol.AtaSecurity.toByte
    AtaSecuritySpecific.FreezeLock.toNat 0 none tr

/-- `security_disable_password` from src/user/src/main.rs. -/
def security_disable_password (d : Device) (password : List Nat)
    (master : Bool) (tr : List Event) : Except IoErr Unit × List Event :=
  let buf := ataSecurityPasswordNew password master none none
  security_send d Protocol.AtaSecurity.toByte
    AtaSecuritySpecific.DisablePassword.toNat 0 (some buf) tr

/-- `query` from src/user/src/main.rs: the read-only composition identify →
protocol enumeration → status decode, stopping at the first error or
unsupported stage (every outcome is only printed). Returns the events
issued. -/
def query (d : Device) : List Event :=
  match ops_identify d [] with
  | (Except.error _, l1) => l1
  | (Except.ok i, l1) =>
    match security_protocols d i l1 with
    | (Except.error _, l2) => l1 ++ l2
    | (Except.ok none, l2) => l1 ++ l2
    | (Except.ok (some ps), l2) =>
      match ata_identify d ps (l1 ++ l2) with
      | (_, l3) => l1 ++ l2 ++ l3

/-- `check_support` from src/user/src/main.rs: the same read-only composition,
returning the decoded status only when every stage succeeded and the
`s_suprt` flag is set. -/
def check_support (d : Device) : Option AtaSecurityIdentify × List Event :=
  match ops_identify d [] with
  | (Except.error _, l1) => (none, l1)
  | (Except.ok i, l1) =>
    match security_protocols d i l1 with
    | (Except.error _, l2) => (none, l1 ++ l2)
    | (Except.ok none, l2) => (none, l1 ++ l2)
    | (Except.ok (some ps), l2) =>
      match ata_identify d ps (l1 ++ l2) with
      | (Except.error _, l3) => (none, l1 ++ l2 ++ l3)
      | (Except.ok none, l3) => (none, l1 ++ l2 ++ l3)
      | (Except.ok (some s), l3) =>
        (if s.s_suprt then some s else none, l1 ++ l2 ++ l3)

/-- The parsed command line of `main` (docopt guarantees exactly one
sub-command; argument parsing itself is outside the spec's scope). -/
inductive Cmd where
  | queryCmd : Cmd
  | setPassword (user : Bool) (max : Bool) (id : Nat) : Cmd
  | unlock (master : Bool) : Cmd
  | disablePassword (master : Bool) : Cmd
  | erase (master : Bool) (enhanced : Bool) : Cmd
  | freeze : Cmd
deriving DecidableEq

/-- The dispatch in `main` from src/user/src/main.rs, lines 290-318: `query`
runs the read-only composition and returns; every other sub-command first
calls `check_support` — whose returned value `main` DISCARDS — then acquires
the password where required (`read_password` exits the process on error,
modelled by stopping the trace) and issues its operation. Returns the events
issued. -/
def run_main (d : Device) (c : Cmd) : List Event :=
  match c with
  | Cmd.queryCmd => query d
  | Cmd.setPassword user mx id =>
    let tr0 := (check_support d).2
    let tr := tr0 ++ [Event.readPasswordEv true]
    match d.passwordResp tr true with
    | Except.error _ => tr
    | Except.ok pw =>
      if user then
        tr ++ (security_set_password_user d (fixLen 32 pw) mx tr).2
      else
        tr ++ (security_set_password_master d (fixLen 32 pw) id tr).2
  | Cmd.unlock master =>
    let tr0 := (check_support d).2
    let tr := tr0 ++ [Event.readPasswordEv false]
    match d.passwordResp tr false with
    | Except.error _ => tr
    | Except.ok pw => tr ++ (security_unlock d (fixLen 32 pw) master tr).2
  | Cmd.disablePassword master =>
    let tr0 := (check_support d).2
    let tr := tr0 ++ [Event.readPasswordEv false]
    match d.passwordResp tr false with
    | Except.error _ => tr
    | Except.ok pw =>
      tr ++ (security_disable_password d (fixLen 32 pw) master tr).2
  | Cmd.erase master enhanced =>
    let tr0 := (check_support d).2
    let tr := tr0 ++ [Event.readPasswordEv true]
    match d.passwordResp tr true with
    | Except.error _ => tr
    | Except.ok pw =>
      tr ++ (security_erase d (fixLen 32 pw) master enhanced tr).2
  | Cmd.freeze =>
    let tr0 := (check_support d).2
    tr0 ++ (security_freeze d tr0).2

/-- The password input source selected by `read_password_err`
(src/user/src/main.rs lines 184-228): a file given by `--password-file`
(opening may fail), the interactive terminal (a sequence of `rpassword`
reads, each of which may fail), or piped standard input. -/
inductive PwSource where
  | file (contents : Except IoErr (List Nat)) : PwSource
  | terminal (entries : List (Except IoErr (List Nat))) : PwSource
  | stdinSrc (contents : List Nat) : PwSource

/-- The interactive-terminal retry loop of `read_password_err`, with explicit
fuel (each iteration consumes at least one entry, so fuel equal to the entry
count suffices; both fuel exhaustion and an exhausted entry list model a read
failure at end of input): re-prompt on an empty password, on a password longer
than 32 bytes, and (when `confirm`) on a confirmation mismatch. -/
def terminalLoopFuel : Nat → List (Except IoErr (List Nat)) → Bool →
    Except IoErr (List Nat)
  | 0, _, _ => Except.error eofErr
  | _ + 1, [], _ => Except.error eofErr
  | _ + 1, Except.error e :: _, _ => Except.error e
  | fuel + 1, Except.ok p1 :: rest, confirm =>
    if p1.length = 0 then terminalLoopFuel fuel rest confirm
    else if 32 < p1.length then terminalLoopFuel fuel rest confirm
    else if confirm then
      match rest with
      | [] => Except.error eofErr
      | Except.error e :: _ => Except.error e
      | Except.ok p2 :: rest2 =>
        if p1 = p2 then Except.ok p1
        else terminalLoopFuel fuel rest2 confirm
    else Except.ok p1

/-- The interactive-terminal retry loop of `read_password_err` over a finite
list of terminal read outcomes. -/
def terminalLoop (entries : List (Except IoErr (List Nat))) (confirm : Bool) :
    Except IoErr (List Nat) :=
  terminalLoopFuel entries.length entries confirm

/-- `read_password_err` from src/user/src/main.rs: select the byte stream
(file contents, accepted terminal password, or standard input), then
`io::copy(&mut f.take(32), &mut buf)` — copy at most 32 bytes into a
zero-initialized 32-byte buffer — failing only when zero bytes were read. -/
def read_password_err (src : PwSource) (confirm : Bool) :
    Except IoErr (List Nat) :=
  let streamE : Except IoErr (List Nat) :=
    match src with
    | PwSource.file c => c
    | PwSource.terminal entries => terminalLoop entries confirm
    | PwSource.stdinSrc c => Except.ok c
  match streamE with
  | Except.error e => Except.error e
  | Except.ok stream =>
    if min stream.length 32 = 0 then Except.error eofErr
    else Except.ok (fixLen 32 stream)

/-- An identity snapshot whose OACS security capability bit is clear. -/
def idNoSec : IdentifyController :=
  { vid := 0, ssvid := 0, sn := [], mn := [], fr := [], oacs := 0 }

/-- An identity snapshot whose OACS security capability bit is set. -/
def idSec : IdentifyController :=
  { vid := 0, ssvid := 0, sn := [], mn := [], fr := [], oacs := 1 }

/-- A fake device: identity reports no security capability, every command
succeeds, receive buffers come back zero-filled. -/
def devStub : Device :=
  { identifyResp := fun _ => Except.ok idNoSec
    receiveResp := fun _ _ _ _ len => Except.ok (List.replicate len 0)
    sendResp := fun _ _ _ _ _ => Except.ok ()
    resetResp := fun _ => Except.ok ()
    passwordResp := fun _ _ => Except.ok (List.replicate 32 0) }

/-- The fake device of spec section 8: phase-1 protocol discovery reports a
big-endian length of 3 at offset 6, phase 2 returns the protocol bytes
[0xEF, 0x01, 0x02] after the 8-byte header. -/
def devFake6 : Device :=
  { identifyResp := fun _ => Except.ok idSec
    receiveResp := fun _ _ _ _ len =>
      if len = 8 then Except.ok [0, 0, 0, 0, 0, 0, 0, 3]
      else Except.ok [0, 0, 0, 0, 0, 0, 0, 3, 0xEF, 1, 2]
    sendResp := fun _ _ _ _ _ => Except.ok ()
    resetResp := fun _ => Except.ok ()
    passwordResp := fun _ _ => Except.ok (List.replicate 32 0) }

/- ------------------------------------------------------------------ -/
/- Helper lemmas                                                      -/
/- ------------------------------------------------------------------ -/

theorem fixLen_length (n : Nat) (l : List Nat) : (fixLen n l).length = n := by
  simp [fixLen]
  omega

theorem terminalLoopFuel_ok_bound (fuel : Nat) :
    ∀ (l : List (Except IoErr (List Nat))) (confirm : Bool) (p : List Nat),
    terminalLoopFuel fuel l confirm = Except.ok p →
    0 < p.length ∧ p.length ≤ 32 := by
  induction fuel with
  | zero => intro l confirm p h; simp [terminalLoopFuel] at h
  | succ n ih =>
    intro l confirm p h
    match l with
    | [] => simp [terminalLoopFuel] at h
    | Except.error e :: t => simp [terminalLoopFuel] at h
    | Except.ok p1 :: t =>
      simp only [terminalLoopFuel] at h
      by_cases h0 : p1.length = 0
      · rw [if_pos h0] at h
        exact ih t confirm p h
      · rw [if_neg h0] at h
        by_cases h32 : 32 < p1.length
        · rw [if_pos h32] at h
          exact ih t confirm p h
        · rw [if_neg h32] at h
          by_cases hc : confirm
          · rw [if_pos hc] at h
            match t with
            | [] => simp at h
            | Except.error e :: t2 => simp at h
            | Except.ok p2 :: t2 =>
              simp only [] at h
              by_cases hpq : p1 = p2
              · rw [if_pos hpq] at h
                cases h
                omega
              · rw [if_neg hpq] at h
                exact ih t2 confirm p h
          · rw [if_neg hc] at h
            cases h
            omega

theorem terminalLoop_ok_bound (entries : List (Except IoErr (List Nat)))
    (confirm : Bool) (p : List Nat)
    (h : terminalLoop entries confirm = Except.ok p) :
    0 < p.length ∧ p.length ≤ 32 :=
  terminalLoopFuel_ok_bound entries.length entries confirm p h

theorem mem_security_protocols_events (d : Device) (i : IdentifyController)
    (tr : List Event) (e : Event)
    (he : e ∈ (security_protocols d i tr).2) :
    isSend e = false ∧ isReadPw e = false := by
  by_cases hcap : i.oacsSecurity
  · cases h1 : d.receiveResp tr 0 0 0 8 with
    | error e1 =>
      simp [security_protocols, security_receive, hcap, h1] at he
      subst he; exact ⟨rfl, rfl⟩
    | ok b1 =>
      by_cases hN : 0 < be16 (fixLen 8 b1) 6
      · cases h2 : d.receiveResp (tr ++ [Event.receiveEv 0 0 0 8]) 0 0 0
            (be16 (fixLen 8 b1) 6 + 8) with
        | error e2 =>
          simp [security_protocols, security_receive, hcap, h1, h2, hN] at he
          rcases he with he | he <;> subst he <;> exact ⟨rfl, rfl⟩
        | ok b2 =>
          simp [security_protocols, security_receive, hcap, h1, h2, hN] at he
          rcases he with he | he <;> subst he <;> exact ⟨rfl, rfl⟩
      · simp [security_protocols, security_receive, hcap, h1, hN] at he
        subst he; exact ⟨rfl, rfl⟩
  · simp [security_protocols, hcap] at he

theorem mem_ata_identify_events (d : Device) (ps : List Protocol)
    (tr : List Event) (e : Event) (he : e ∈ (ata_identify d ps tr).2) :
    isSend e = false ∧ isReadPw e = false := by
  by_cases hc : Protocol.AtaSecurity ∈ ps
  · cases h1 : d.receiveResp tr Protocol.AtaSecurity.toByte 0 0 16 with
    | error e1 =>
      simp [ata_identify, security_receive, hc, h1] at he
      subst he; exact ⟨rfl, rfl⟩
    | ok b =>
      simp [ata_identify, security_receive, hc, h1] at he
      subst he; exact ⟨rfl, rfl⟩
  · simp [ata_identify, hc] at he

theorem mem_query_events (d : Device) (e : Event) (he : e ∈ query d) :
    isSend e = false ∧ isReadPw e = false := by
  unfold query at he
  cases h1 : d.identifyResp [] with
  | error e1 =>
    simp [ops_identify, h1] at he
    subst he; exact ⟨rfl, rfl⟩
  | ok i =>
    rcases hsp : security_protocols d i [Event.identifyEv] with ⟨r2, l2⟩
    have hmem2 : ∀ x ∈ l2, isSend x = false ∧ isReadPw x = false := by
      intro x hx
      exact mem_security_protocols_events d i [Event.identifyEv] x
        (by rw [hsp]; exact hx)
    cases r2 with
    | error e2 =>
      simp [ops_identify, h1, hsp] at he
      rcases he with he | he
      · subst he; exact ⟨rfl, rfl⟩
      · exact hmem2 e he
    | ok o =>
      cases o with
      | none =>
        simp [ops_identify, h1, hsp] at he
        rcases he with he | he
        · subst he; exact ⟨rfl, rfl⟩
        · exact hmem2 e he
      | some ps =>
        rcases hai : ata_identify d ps (Event.identifyEv :: l2) with ⟨r3, l3⟩
        have hmem3 : ∀ x ∈ l3, isSend x = false ∧ isReadPw x = false := by
          intro x hx
          exact mem_ata_identify_events d ps (Event.identifyEv :: l2) x
            (by rw [hai]; exact hx)
        simp [ops_identify, h1, hsp, hai] at he
        rcases he with he | he | he
        · subst he; exact ⟨rfl, rfl⟩
        · exact hmem2 e he
        · exact hmem3 e he

theorem mem_check_support_events (d : Device) (e : Event)
    (he : e ∈ (check_support d).2) :
    isSend e = false ∧ isReadPw e = false := by
  unfold check_support at he
  cases h1 : d.identifyResp [] with
  | error e1 =>
    simp [ops_identify, h1] at he
    subst he; exact ⟨rfl, rfl⟩
  | ok i =>
    rcases hsp : security_protocols d i [Event.identifyEv] with ⟨r2, l2⟩
    have hmem2 : ∀ x ∈ l2, isSend x = false ∧ isReadPw x = false := by
      intro x hx
      exact mem_security_protocols_events d i [Event.identifyEv] x
        (by rw [hsp]; exact hx)
    cases r2 with
    | error e2 =>
      simp [ops_identify, h1, hsp] at he
      rcases he with he | he
      · subst he; exact ⟨rfl, rfl⟩
      · exact hmem2 e he
    | ok o =>
      cases o with
      | none =>
        simp [ops_identify, h1, hsp] at he
        rcases he with he | he
        · subst he; exact ⟨rfl, rfl⟩
        · exact hmem2 e he
      | some ps =>
        rcases hai : ata_identify d ps (Event.identifyEv :: l2) with ⟨r3, l3⟩
        have hmem3 : ∀ x ∈ l3, isSend x = false ∧ isReadPw x = false := by
          intro x hx
          exact mem_ata_identify_events d ps (Event.identifyEv :: l2) x
            (by rw [hai]; exact hx)
        cases r3 with
        | error e3 =>
          simp [ops_identify, h1, hsp, hai] at he
          rcases he with he | he | he
          · subst he; exact ⟨rfl, rfl⟩
          · exact hmem2 e he
          · exact hmem3 e he
        | ok o3 =>
          cases o3 with
          | none =>
            simp [ops_identify, h1, hsp, hai] at he
            rcases he with he | he | he
            · subst he; exact ⟨rfl, rfl⟩
            · exact hmem2 e he
            · exact hmem3 e he
          | some s =>
            simp [ops_identify, h1, hsp, hai] at he
            rcases he with he | he | he
            · subst he; exact ⟨rfl, rfl⟩
            · exact hmem2 e he
            · exact hmem3 e he

theorem filter_isReadPw_eq_nil (l : List Event)
    (h : ∀ e ∈ l, isReadPw e = false) : l.filter isReadPw = [] := by
  induction l with
  | nil => rfl
  | cons a t ih =>
    have ha := h a (List.mem_cons_self a t)
    simp [List.filter, ha, ih (fun e he => h e (List.mem_cons_of_mem a he))]

/- ------------------------------------------------------------------ -/
/- Claim theorems                                                     -/
/- ------------------------------------------------------------------ -/

/-- C8: for all 32-byte passwords P and all role/level/master-id selectors,
the encoded password payload is exactly 36 bytes with bytes 2..33 equal to P
verbatim; control word bit0 is the role (0=user, 1=master) and bit8 the level
(0=high, 1=maximum); bytes 34-35 hold the master-id as little-endian 16-bit
when role is Master and are zero otherwise. -/
theorem encode_password_layout (P : List Nat) (hP : P.length = 32)
    (master : Bool) (level : Option Bool) (id : Option Nat) :
    (ataSecurityPasswordNew P master level id).length = 36 ∧
    ((ataSecurityPasswordNew P master level id).drop 2).take 32 = P ∧
    (ataSecurityPasswordNew P master level id).getD 0 0 % 2 =
      (if master then 1 else 0) ∧
    (ataSecurityPasswordNew P master level id).getD 1 0 % 2 =
      (if level = some true then 1 else 0) ∧
    (ataSecurityPasswordNew P master level id).drop 34 =
      (if master then [id.getD 0 % 256, id.getD 0 / 256 % 256] else [0, 0]) := by
  unfold ataSecurityPasswordNew
  refine ⟨by simp [hP], ?_, ?_, ?_, ?_⟩
  · simp only [List.cons_append, List.drop_succ_cons, List.drop_zero]
    rw [← hP]
    exact List.take_left P _
  · cases master <;> cases level <;> simp <;> split <;> simp
  · cases master <;> cases level <;> simp <;> split <;> simp
  · cases master with
    | false =>
        simp only [if_neg (by simp : ¬False)]
        have : (2 : Nat) + P.length = 34 := by omega
        simp [List.drop_append_eq_append_drop, hP]
    | true =>
        have : (2 : Nat) + P.length = 34 := by omega
        simp [List.drop_append_eq_append_drop, hP]

/-- C8 witness: the layout at a concrete 32-byte password, master role,
maximum level and master-id 0xABCD. -/
theorem encode_password_layout_witness :
    (ataSecurityPasswordNew (List.replicate 32 5) true (some true)
      (some 43981)).length = 36 ∧
    ((ataSecurityPasswordNew (List.replicate 32 5) true (some true)
      (some 43981)).drop 2).take 32 = List.replicate 32 5 ∧
    (ataSecurityPasswordNew (List.replicate 32 5) true (some true)
      (some 43981)).getD 0 0 % 2 = 1 ∧
    (ataSecurityPasswordNew (List.replicate 32 5) true (some true)
      (some 43981)).getD 1 0 % 2 = 1 ∧
    (ataSecurityPasswordNew (List.replicate 32 5) true (some true)
      (some 43981)).drop 34 = [205, 171] := by
  have h := encode_password_layout (List.replicate 32 5) (by decide) true
    (some true) (some 43981)
  exact ⟨h.1, h.2.1, h.2.2.1, h.2.2.2.1, h.2.2.2.2⟩

/-- C3: every execution of the erase operation issues exactly the
ErasePrepare send (no payload) followed, only when that send succeeded, by
the EraseUnit send (with payload) — nothing between them, and no EraseUnit
when ErasePrepare failed. -/
theorem security_erase_two_phase (d : Device) (pw : List Nat)
    (master enhanced : Bool) (tr : List Event) :
    (security_erase d pw master enhanced tr).2 =
      match d.sendResp tr Protocol.AtaSecurity.toByte
          AtaSecuritySpecific.ErasePrepare.toNat 0 none with
      | Except.error _ =>
        [Event.sendEv Protocol.AtaSecurity.toByte
          AtaSecuritySpecific.ErasePrepare.toNat 0 none]
      | Except.ok _ =>
        [Event.sendEv Protocol.AtaSecurity.toByte
          AtaSecuritySpecific.ErasePrepare.toNat 0 none,
         Event.sendEv Protocol.AtaSecurity.toByte
          AtaSecuritySpecific.EraseUnit.toNat 0
          (some (ataSecurityPasswordNew pw master (some enhanced) none))] := by
  cases h : d.sendResp tr Protocol.AtaSecurity.toByte
      AtaSecuritySpecific.ErasePrepare.toNat 0 none <;>
    simp [security_erase, security_send, h]

/-- C4: every execution of the unlock operation issues the Unlock send (with
payload) followed, unconditionally on that send's success and only then, by
exactly one controller reset. -/
theorem security_unlock_reset (d : Device) (pw : List Nat) (master : Bool)
    (tr : List Event) :
    (security_unlock d pw master tr).2 =
      match d.sendResp tr Protocol.AtaSecurity.toByte
          AtaSecuritySpecific.Unlock.toNat 0
          (some (ataSecurityPasswordNew pw master none none)) with
      | Except.error _ =>
        [Event.sendEv Protocol.AtaSecurity.toByte
          AtaSecuritySpecific.Unlock.toNat 0
          (some (ataSecurityPasswordNew pw master none none))]
      | Except.ok _ =>
        [Event.sendEv Protocol.AtaSecurity.toByte
          AtaSecuritySpecific.Unlock.toNat 0
          (some (ataSecurityPasswordNew pw master none none)),
         Event.resetEv] := by
  cases h : d.sendResp tr Protocol.AtaSecurity.toByte
      AtaSecuritySpecific.Unlock.toNat 0
      (some (ataSecurityPasswordNew pw master none none)) <;>
    simp [security_unlock, security_send, nvme_ioctl_reset, h]

/-- C5: for every device and every identity whose security capability bit is
absent, `security_protocols` returns the unsupported outcome (`Ok(None)`)
and issues zero device commands. -/
theorem security_protocols_unsupported (d : Device) (i : IdentifyController)
    (tr : List Event) (h : i.oacsSecurity = false) :
    security_protocols d i tr = (Except.ok none, []) := by
  simp [security_protocols, h]

/-- C5 witness: the unsupported outcome at a concrete device whose OACS mask
is zero. -/
theorem security_protocols_unsupported_witness :
    security_protocols devStub idNoSec [] = (Except.ok none, []) :=
  security_protocols_unsupported devStub idNoSec [] (by decide)

/-- C6: when the capability bit is present, `security_protocols` issues a
first receive with an 8-byte buffer, reads the big-endian 16-bit length N at
byte offset 6 of the response, and: if N > 0, issues exactly one second
receive with a buffer of N+8 bytes and returns the N bytes after the 8-byte
header each mapped to a protocol (the result has exactly N entries); if
N = 0, returns an empty sequence with no second receive. -/
theorem security_protocols_two_phase (d : Device) (i : IdentifyController)
    (tr : List Event) (h : i.oacsSecurity = true) :
    match d.receiveResp tr 0 0 0 8 with
    | Except.error e =>
      security_protocols d i tr = (Except.error e, [Event.receiveEv 0 0 0 8])
    | Except.ok b1 =>
      if 0 < be16 (fixLen 8 b1) 6 then
        match d.receiveResp (tr ++ [Event.receiveEv 0 0 0 8]) 0 0 0
            (be16 (fixLen 8 b1) 6 + 8) with
        | Except.error e =>
          security_protocols d i tr =
            (Except.error e,
             [Event.receiveEv 0 0 0 8,
              Event.receiveEv 0 0 0 (be16 (fixLen 8 b1) 6 + 8)])
        | Except.ok b2 =>
          security_protocols d i tr =
            (Except.ok (some (((fixLen (be16 (fixLen 8 b1) 6 + 8) b2).drop
                8).map Protocol.ofByte)),
             [Event.receiveEv 0 0 0 8,
              Event.receiveEv 0 0 0 (be16 (fixLen 8 b1) 6 + 8)]) ∧
          (((fixLen (be16 (fixLen 8 b1) 6 + 8) b2).drop 8).map
              Protocol.ofByte).length = be16 (fixLen 8 b1) 6
      else
        security_protocols d i tr =
          (Except.ok (some []), [Event.receiveEv 0 0 0 8]) := by
  cases h1 : d.receiveResp tr 0 0 0 8 with
  | error e1 => simp [security_protocols, security_receive, h, h1]
  | ok b1 =>
    by_cases hN : 0 < be16 (fixLen 8 b1) 6
    · simp only [hN, if_pos]
      cases h2 : d.receiveResp (tr ++ [Event.receiveEv 0 0 0 8]) 0 0 0
          (be16 (fixLen 8 b1) 6 + 8) with
      | error e2 =>
        simp [security_protocols, security_receive, h, h1, h2, hN]
      | ok b2 =>
        constructor
        · simp [security_protocols, security_receive, h, h1, h2, hN]
        · simp [fixLen_length]
    · simp only [hN, if_neg, if_false]
      simp [security_protocols, security_receive, h, h1, hN]

/-- C6 witness: on the fake device of spec section 8 (phase-1 length 3,
phase-2 bytes [0xEF, 0x01, 0x02] after the header), `security_protocols`
issues the two receives and returns exactly three entries, the first
recognized as ATA-Security. -/
theorem security_protocols_two_phase_witness :
    security_protocols devFake6 idSec [] =
      (Except.ok (some [Protocol.AtaSecurity, Protocol.Other 1,
        Protocol.Other 2]),
       [Event.receiveEv 0 0 0 8, Event.receiveEv 0 0 0 11]) := by
  have h := security_protocols_two_phase devFake6 idSec [] (by decide)
  exact h.1

/-- C7: for every protocol list not containing ATA-Security, the status
decoder returns the unsupported outcome (`Ok(None)`) with zero device
commands; for every list containing ATA-Security it issues exactly one
receive with protocol = ATA-Security (0xEF), sub-selector 0 and a 16-byte
buffer. -/
theorem ata_identify_commands (d : Device) (ps : List Protocol)
    (tr : List Event) :
    (Protocol.AtaSecurity ∉ ps → ata_identify d ps tr = (Except.ok none, [])) ∧
    (Protocol.AtaSecurity ∈ ps →
      (ata_identify d ps tr).2 =
        [Event.receiveEv Protocol.AtaSecurity.toByte 0 0 16]) := by
  constructor
  · intro h
    simp [ata_identify, h]
  · intro h
    cases h1 : d.receiveResp tr Protocol.AtaSecurity.toByte 0 0 16 <;>
      simp [ata_identify, security_receive, h, h1]

/-- C7 witness: the unsupported outcome at a list without ATA-Security and
the single 16-byte receive at a list with it, on a concrete device. -/
theorem ata_identify_commands_witness :
    ata_identify devStub [Protocol.Other 1] [] = (Except.ok none, []) ∧
    (ata_identify devStub [Protocol.AtaSecurity] []).2 =
      [Event.receiveEv Protocol.AtaSecurity.toByte 0 0 16] :=
  ⟨(ata_identify_commands devStub [Protocol.Other 1] []).1 (by decide),
   (ata_identify_commands devStub [Protocol.AtaSecurity] []).2 (by decide)⟩

/-- C9: the query operation never issues a send (mutating) command, for every
device, i.e. under every combination of device responses at every stage. -/
theorem query_never_sends (d : Device) (e : Event) (he : e ∈ query d) :
    isSend e = false :=
  (mem_query_events d e he).1

/-- C9 witness: the identify event issued by `query` on a concrete device is
not a send. -/
theorem query_never_sends_witness :
    Event.identifyEv ∈ query devStub ∧ isSend Event.identifyEv = false :=
  ⟨by decide, query_never_sends devStub Event.identifyEv (by decide)⟩

/-- C10: password acquisition is requested with confirmation exactly for
set-password (both roles) and erase, without confirmation for unlock and
disable-password, and never for query or freeze — for every device and every
flag combination. -/
theorem main_password_confirmation (d : Device) (u mx : Bool) (idn : Nat)
    (m en : Bool) :
    (run_main d Cmd.queryCmd).filter isReadPw = [] ∧
    (run_main d (Cmd.setPassword u mx idn)).filter isReadPw =
      [Event.readPasswordEv true] ∧
    (run_main d (Cmd.unlock m)).filter isReadPw =
      [Event.readPasswordEv false] ∧
    (run_main d (Cmd.disablePassword m)).filter isReadPw =
      [Event.readPasswordEv false] ∧
    (run_main d (Cmd.erase m en)).filter isReadPw =
      [Event.readPasswordEv true] ∧
    (run_main d Cmd.freeze).filter isReadPw = [] := by
  have hq := filter_isReadPw_eq_nil (query d)
    (fun e he => (mem_query_events d e he).2)
  have hcs := filter_isReadPw_eq_nil (check_support d).2
    (fun e he => (mem_check_support_events d e he).2)
  refine ⟨by simpa [run_main] using hq, ?_, ?_, ?_, ?_, ?_⟩
  · cases hp : d.passwordResp ((check_support d).2 ++
        [Event.readPasswordEv true]) true with
    | error e =>
      simp [run_main, hp, List.filter_append, hcs, isReadPw]
    | ok pw =>
      cases u <;>
        simp [run_main, hp, List.filter_append, hcs, isReadPw,
          security_set_password_user, security_set_password_master,
          security_send]
  · cases hp : d.passwordResp ((check_support d).2 ++
        [Event.readPasswordEv false]) false with
    | error e =>
      simp [run_main, hp, List.filter_append, hcs, isReadPw]
    | ok pw =>
      cases h2 : d.sendResp ((check_support d).2 ++
          [Event.readPasswordEv false]) Protocol.AtaSecurity.toByte
          AtaSecuritySpecific.Unlock.toNat 0
          (some (ataSecurityPasswordNew (fixLen 32 pw) m none none)) <;>
        simp [run_main, hp, h2, List.filter_append, hcs, isReadPw,
          security_unlock, security_send, nvme_ioctl_reset]
  · cases hp : d.passwordResp ((check_support d).2 ++
        [Event.readPasswordEv false]) false with
    | error e =>
      simp [run_main, hp, List.filter_append, hcs, isReadPw]
    | ok pw =>
      simp [run_main, hp, List.filter_append, hcs, isReadPw,
        security_disable_password, security_send]
  · cases hp : d.passwordResp ((check_support d).2 ++
        [Event.readPasswordEv true]) true with
    | error e =>
      simp [run_main, hp, List.filter_append, hcs, isReadPw]
    | ok pw =>
      cases h2 : d.sendResp ((check_support d).2 ++
          [Event.readPasswordEv true]) Protocol.AtaSecurity.toByte
          AtaSecuritySpecific.ErasePrepare.toNat 0 none <;>
        simp [run_main, hp, h2, List.filter_append, hcs, isReadPw,
          security_erase, security_send]
  · simp [run_main, List.filter_append, hcs, isReadPw, security_freeze,
      security_send]

/-- C1: `main` runs the read-only support composition before every mutating
sub-command, but DISCARDS its result (src/user/src/main.rs line 294:
`check_support(&f);`). On a device whose security capability bit is absent,
`check_support` reports unsupported (`None`), yet the freeze operation still
issues its mutating FreezeLock send — contradicting the claim that the
operation stops without issuing any mutating send. -/
theorem freeze_sent_despite_unsupported :
    (check_support devStub).1 = none ∧
    Event.sendEv Protocol.AtaSecurity.toByte
        AtaSecuritySpecific.FreezeLock.toNat 0 none
      ∈ run_main devStub Cmd.freeze := by
  decide

/-- C2 counterexample: for the file password source, input longer than 32
bytes (here 33 bytes) is NOT rejected: `read_password_err` succeeds with the
input silently truncated to its first 32 bytes. -/
theorem read_password_truncates_long_input :
    32 < (List.replicate 33 1).length ∧
    read_password_err (PwSource.file (Except.ok (List.replicate 33 1))) false =
      Except.ok ((List.replicate 33 1).take 32) := by
  decide

/-- C2 (amended): for every password input source, input shorter than 32
bytes is zero-padded on the right to exactly 32 bytes and empty input is
rejected; input longer than 32 bytes is rejected (re-prompted) only by the
interactive terminal source, while the file and standard-input sources
silently truncate it to the first 32 bytes. -/
theorem read_password_padding_policy (c : List Nat) (confirm : Bool)
    (entries : List (Except IoErr (List Nat))) :
    (0 < c.length → c.length ≤ 32 →
      read_password_err (PwSource.file (Except.ok c)) confirm =
        Except.ok (c ++ List.replicate (32 - c.length) 0) ∧
      read_password_err (PwSource.stdinSrc c) confirm =
        Except.ok (c ++ List.replicate (32 - c.length) 0)) ∧
    (c.length = 0 →
      read_password_err (PwSource.file (Except.ok c)) confirm =
        Except.error eofErr ∧
      read_password_err (PwSource.stdinSrc c) confirm =
        Except.error eofErr) ∧
    (32 < c.length →
      read_password_err (PwSource.file (Except.ok c)) confirm =
        Except.ok (c.take 32) ∧
      read_password_err (PwSource.stdinSrc c) confirm =
        Except.ok (c.take 32)) ∧
    (∀ p, terminalLoop entries confirm = Except.ok p →
      0 < p.length ∧ p.length ≤ 32) ∧
    (∀ r, read_password_err (PwSource.terminal entries) confirm =
        Except.ok r → r.length = 32) := by
  refine ⟨?_, ?_, ?_, terminalLoop_ok_bound entries confirm, ?_⟩
  · intro h0 h32
    have hmin : min c.length 32 = c.length := by omega
    have htake : c.take 32 = c := List.take_of_length_le h32
    constructor <;>
      simp [read_password_err, fixLen, hmin, htake, Nat.pos_iff_ne_zero.mp h0]
  · intro h0
    have : c = [] := List.length_eq_zero.mp h0
    subst this
    constructor <;> simp [read_password_err]
  · intro h32
    have hmin : min c.length 32 = 32 := by omega
    have hrep : 32 - c.length = 0 := by omega
    constructor <;> simp [read_password_err, fixLen, hmin, hrep]
  · intro r hr
    cases ht : terminalLoop entries confirm with
    | error e => simp [read_password_err, ht] at hr
    | ok p =>
      have hb := terminalLoop_ok_bound entries confirm p ht
      have hmin : ¬ min p.length 32 = 0 := by omega
      simp [read_password_err, ht, hmin] at hr
      rw [← hr]
      exact fixLen_length 32 p

/-- C2 witness: a 1-byte file input is zero-padded to 32 bytes; an empty
stdin input is rejected; a 40-byte file input is (contrary to the original
claim) accepted and truncated; a concrete terminal acquisition stays within
1..32 bytes. -/
theorem read_password_padding_policy_witness :
    read_password_err (PwSource.file (Except.ok [7])) false =
      Except.ok ([7] ++ List.replicate 31 0) ∧
    read_password_err (PwSource.stdinSrc []) false = Except.error eofErr ∧
    read_password_err (PwSource.file (Except.ok (List.replicate 40 2)))
      false = Except.ok ((List.replicate 40 2).take 32) ∧
    (0 < [3, 4].length ∧ [3, 4].length ≤ 32) := by
  refine ⟨((read_password_padding_policy [7] false []).1 (by decide)
      (by decide)).1, ?_, ?_, ?_⟩
  · exact ((read_password_padding_policy [] false []).2.1 (by decide)).2
  · exact ((read_password_padding_policy (List.replicate 40 2) false
      []).2.2.1 (by decide)).1
  · exact (read_password_padding_policy [] false
      [Except.ok [3, 4]]).2.2.2.1 [3, 4] (by decide)

end NvmeAtaSec
